import Mathlib

/-!
# Fragments microservice — verification of the storage backend, fragment
# model and conversion engine

Shallow embedding of the core of the `Fragments` Node.js service:

* `src/model/data/memory/memory-db.js` — the in-process `MemoryDB` keyed map,
  modelled as an insertion-ordered association list (JS `Map` semantics:
  `set` overwrites in place, `delete` removes, iteration follows insertion
  order);
* `src/model/data/memory/index.js` — the volatile storage backend
  (`readFragment`, `writeFragment`, `readFragmentData`, `writeFragmentData`,
  `listFragments`, `deleteFragment`);
* `src/model/data/aws/index.js` — the durable backend variant (S3 blob store
  plus the same in-memory metadata store), modelled on its success path for
  the S3 round-trips;
* `src/model/fragment.js` — the `Fragment` entity (constructor, `save`,
  `setData`, `byUser`, `isSupportedType`);
* `src/converter.js` — the conversion engine (`extensionToMimeType`,
  `canConvert`, `convertText`, `convertImage`, `convert`).

Buffers are modelled as `List Nat` (one entry per byte; only lengths and
identity of payloads matter to the properties below).  Asynchronous functions
are modelled as pure state-passing functions; a JS `throw` becomes
`Except.error` carrying the thrown message.  External collaborators that the
source delegates to (the `sharp` image codec, the `markdown-it` renderer,
JS `JSON` and regex engines) are abstracted as explicit function parameters,
so every theorem quantifying over them holds for *every* behaviour of the
collaborator.
-/

namespace Fragments

/-- A binary payload (JS `Buffer`), one list entry per byte. -/
abbrev Bytes := List Nat

/-- The record that `MemoryDB` stores under a fragment id.  `writeFragment`
strips the `id` before storing (`const { id, ...fragmentData } = fragment`),
so the stored record has no `id` field; `data` is absent (`none`) until a
blob write adds it. -/
structure StoredFragment where
  ownerId : String
  type : String
  size : Nat
  created : String
  updated : String
  data : Option Bytes
deriving Repr, DecidableEq

/-- The `MemoryDB` map (`src/model/data/memory/memory-db.js`): a JS `Map`
from fragment id to stored record, as an insertion-ordered association
list. -/
abbrev DB := List (String × StoredFragment)

/-- Models `MemoryDB.get(id)`: `this.db.get(id) || null`. -/
def dbGet (db : DB) (id : String) : Option StoredFragment :=
  (db.find? (fun p => p.1 = id)).map (·.2)

/-- Models `MemoryDB.set(id, fragment)`: JS `Map.set` keeps the original position
of an existing key and appends a new key at the end. -/
def dbSet (db : DB) (id : String) (v : StoredFragment) : DB :=
  if db.any (fun p => p.1 = id) then
    db.map (fun p => if p.1 = id then (id, v) else p)
  else
    db ++ [(id, v)]

/-- Models `MemoryDB.delete(id)`: JS `Map.delete` returns whether the key existed
and removes it. -/
def dbDelete (db : DB) (id : String) : Bool × DB :=
  (db.any (fun p => p.1 = id), db.filter (fun p => ¬ p.1 = id))

/-- Models `MemoryDB.getByOwner(ownerId)`: collects `{ id, ...fragment }` for every
entry whose `ownerId` matches, in insertion order. -/
def dbGetByOwner (db : DB) (ownerId : String) : List (String × StoredFragment) :=
  db.filter (fun p => p.2.ownerId = ownerId)

/-! ## Volatile backend — `src/model/data/memory/index.js` -/

/-- Models `readFragment(ownerId, id)`: returns `null` when the record is absent or
the stored owner differs; otherwise `{ id, ...fragment }`. -/
def readFragment (db : DB) (ownerId id : String) : Option (String × StoredFragment) :=
  match dbGet db id with
  | none => none
  | some fragment =>
    if fragment.ownerId ≠ ownerId then none
    else some (id, fragment)

/-- Models `writeFragment(fragment)`: strips the id, stores the rest unconditionally
(no ownership check), and returns `{ id, ...storedFragment }` together with
the updated store. -/
def writeFragment (db : DB) (fragment : String × StoredFragment) :
    (String × StoredFragment) × DB :=
  ((fragment.1, fragment.2), dbSet db fragment.1 fragment.2)

/-- Models `readFragmentData(ownerId, id)`: `null` when the record is absent, when
the stored owner differs, or when the record has no `data` field. -/
def readFragmentData (db : DB) (ownerId id : String) : Option Bytes :=
  match dbGet db id with
  | none => none
  | some fragment =>
    if fragment.ownerId ≠ ownerId then none
    else
      match fragment.data with
      | none => none
      | some d => some d

/-- Models `writeFragmentData(ownerId, id, data)`: throws `Fragment not found` when
no record exists, `Fragment owner mismatch` when the stored owner differs;
otherwise stores `{ ...fragment, data, size: data.length }` and returns
`{ id, ...updatedFragment }` with the updated store. -/
def writeFragmentData (db : DB) (ownerId id : String) (data : Bytes) :
    Except String ((String × StoredFragment) × DB) :=
  match dbGet db id with
  | none => .error "Fragment not found"
  | some fragment =>
    if fragment.ownerId ≠ ownerId then .error "Fragment owner mismatch"
    else
      let updatedFragment : StoredFragment :=
        { fragment with data := some data, size := data.length }
      .ok ((id, updatedFragment), dbSet db id updatedFragment)

/-- Models `listFragments(ownerId)`: returns `memoryDB.getByOwner(ownerId)` — the
full stored records.  The JS function declares only `ownerId`; the extra
`expand` argument that `Fragment.byUser` passes is silently ignored. -/
def listFragments (db : DB) (ownerId : String) : List (String × StoredFragment) :=
  dbGetByOwner db ownerId

/-- Models `deleteFragment(ownerId, id)`: `false` when absent or owner differs,
otherwise `memoryDB.delete(id)`. -/
def deleteFragment (db : DB) (ownerId id : String) : Bool × DB :=
  match dbGet db id with
  | none => (false, db)
  | some fragment =>
    if fragment.ownerId ≠ ownerId then (false, db)
    else dbDelete db id

/-! ## `MemoryDB` lemmas -/

theorem dbGet_map_replace (db : DB) (id : String) (v : StoredFragment) :
    dbGet (db.map (fun p => if p.1 = id then (id, v) else p)) id =
      if db.any (fun p => p.1 = id) then some v else none := by
  induction db with
  | nil => simp [dbGet]
  | cons hd tl ih =>
    by_cases hhd : hd.1 = id
    · simp [dbGet, List.find?, hhd]
    · simp only [List.map_cons, if_neg hhd, dbGet, List.find?,
        decide_eq_false hhd, List.any_cons, Bool.false_or] at ih ⊢
      exact ih

theorem dbGet_append_single (db : DB) (id : String) (v : StoredFragment)
    (h : ∀ p ∈ db, ¬ p.1 = id) :
    dbGet (db ++ [(id, v)]) id = some v := by
  induction db with
  | nil => simp [dbGet, List.find?]
  | cons hd tl ih =>
    have hhd : ¬ hd.1 = id := h hd (by simp)
    simp only [List.cons_append, dbGet, List.find?, decide_eq_false hhd]
    exact ih (fun p hp => h p (by simp [hp]))

theorem dbGet_dbSet_self (db : DB) (id : String) (v : StoredFragment) :
    dbGet (dbSet db id v) id = some v := by
  unfold dbSet
  by_cases h : db.any (fun p => p.1 = id)
  · simp only [h, if_true]
    rw [dbGet_map_replace, if_pos h]
  · simp only [h, if_false]
    refine dbGet_append_single db id v ?_
    intro p hp hc
    exact h (List.any_eq_true.mpr ⟨p, hp, by simp [hc]⟩)

theorem dbGet_dbDelete_self (db : DB) (id : String) :
    dbGet (dbDelete db id).2 id = none := by
  simp only [dbDelete, dbGet, Option.map_eq_none', List.find?_eq_none]
  intro p hp
  have h2 := (List.mem_filter.mp hp).2
  simp_all

/-! ## Fragment entity — `src/model/fragment.js` -/

/-- The `Fragment` class instance fields.  `id`, `created` and `updated` are
set in the constructor from `crypto.randomUUID()` and `new Date()`; those
external sources are passed in explicitly here. -/
structure Fragment where
  ownerId : String
  type : String
  size : Nat
  data : Option Bytes
  id : String
  created : String
  updated : String
deriving Repr, DecidableEq

/-- Models `new Fragment({ ownerId, type, size = 0, data = null })`: `size` comes
from the (optional, defaulted to 0) `size` argument — it is *not* derived
from `data`.  `id` models the `crypto.randomUUID()` result and `now` the
`new Date().toISOString()` timestamp. -/
def fragmentNew (ownerId type : String) (size : Option Nat) (data : Option Bytes)
    (id now : String) : Fragment :=
  { ownerId := ownerId, type := type, size := size.getD 0, data := data,
    id := id, created := now, updated := now }

/-- Models `Fragment.prototype.setData(data)`: replaces the cached payload, sets
`size = data.length` and refreshes `updated`.  (The JS `Buffer.isBuffer`
guard is enforced here by the `Bytes` type.) -/
def Fragment.setData (f : Fragment) (d : Bytes) (now : String) : Fragment :=
  { f with data := some d, size := d.length, updated := now }

/-- The metadata object `save()` passes to `writeFragment`:
`{ id, ownerId, type, size, created, updated }` — no `data` field. -/
def Fragment.metadata (f : Fragment) : StoredFragment :=
  { ownerId := f.ownerId, type := f.type, size := f.size,
    created := f.created, updated := f.updated, data := none }

/-- Models `Fragment.prototype.save()`: writes the metadata record, then — only when
`this.data` is non-null — writes the blob via `writeFragmentData` (which may
throw).  Returns `this` together with the updated store. -/
def Fragment.save (f : Fragment) (db : DB) : Except String (Fragment × DB) :=
  let db1 := (writeFragment db (f.id, f.metadata)).2
  match f.data with
  | none => .ok (f, db1)
  | some d =>
    match writeFragmentData db1 f.ownerId f.id d with
    | .error e => .error e
    | .ok (_, db2) => .ok (f, db2)

/-- Models `Fragment.byUser(ownerId, expand)`: calls `listFragments(ownerId, expand)`
(the backend ignores the second argument) and, when `expand` is true, loads
and attaches the blob data of every returned record. -/
def byUser (db : DB) (ownerId : String) (expand : Bool) :
    List (String × StoredFragment) :=
  let fragments := listFragments db ownerId
  if expand then
    fragments.map (fun p => (p.1, { p.2 with data := readFragmentData db ownerId p.1 }))
  else fragments

/-- The fixed MIME allow-list of `Fragment.isSupportedType`. -/
def supportedTypes : List String :=
  ["text/plain", "text/html", "text/css", "text/javascript",
   "application/json", "text/markdown", "text/xml", "application/xml"]

/-- Models `Fragment.isSupportedType(type)`: `supportedTypes.includes(type)` — an
exact membership test on the full string. -/
def isSupportedType (type : String) : Bool := supportedTypes.contains type

/-! ## Durable backend — `src/model/data/aws/index.js`

Metadata still lives in the shared `MemoryDB`; blobs live in S3 under the
key `ownerId/id`.  The S3 round-trips are modelled on their success path (an
S3 failure surfaces as `unable to upload fragment data` / `unable to read
fragment data` and aborts the call). -/

/-- The two independently-failing stores of the durable backend. -/
structure AwsState where
  meta : DB
  s3 : List (String × Bytes)
deriving Repr, DecidableEq

/-- The S3 object key: `` `${ownerId}/${id}` ``. -/
def s3Key (ownerId id : String) : String := ownerId ++ "/" ++ id

/-- A successful S3 `PutObject`: upsert by key. -/
def s3Put (store : List (String × Bytes)) (key : String) (body : Bytes) :
    List (String × Bytes) :=
  if store.any (fun p => p.1 = key) then
    store.map (fun p => if p.1 = key then (key, body) else p)
  else store ++ [(key, body)]

/-- AWS `writeFragmentData(ownerId, id, data)`: uploads the blob to S3
*first*, then verifies the metadata record and its owner, throwing
`Fragment not found` / `Fragment owner mismatch` after the upload already
happened.  On success it returns `{ id, ...fragment, size: data.length }` —
the recomputed size appears only in the returned object; nothing is written
back to the metadata store. -/
def awsWriteFragmentData (s : AwsState) (ownerId id : String) (data : Bytes) :
    AwsState × Except String (String × StoredFragment) :=
  let s3' := s3Put s.s3 (s3Key ownerId id) data
  match dbGet s.meta id with
  | none => ({ meta := s.meta, s3 := s3' }, .error "Fragment not found")
  | some fragment =>
    if fragment.ownerId ≠ ownerId then
      ({ meta := s.meta, s3 := s3' }, .error "Fragment owner mismatch")
    else
      ({ meta := s.meta, s3 := s3' }, .ok (id, { fragment with size := data.length }))

/-! ## Concrete sample data for witnesses and counterexamples -/

/-- A sample stored record owned by `user1` with stale size 10 and no blob. -/
def recU1 : StoredFragment :=
  { ownerId := "user1", type := "text/plain", size := 10,
    created := "2024-01-01T00:00:00.000Z", updated := "2024-01-01T00:00:00.000Z",
    data := none }

/-- The same record but owned by `user2`. -/
def recU2 : StoredFragment := { recU1 with ownerId := "user2" }

/-- A store holding exactly `recU1` under id `f1`. -/
def dbOne : DB := [("f1", recU1)]

/-- The UTF-8 bytes of `"hello"`. -/
def helloBytes : Bytes := [104, 101, 108, 108, 111]

/-! ## Claims C1–C4 -/

/-- C1 (counterexample): `writeFragmentData` distinguishes an owner mismatch
from a missing record — with the record present but owned by `user1`, a call
by `user2` throws `Fragment owner mismatch`, while the same call after the
record is removed throws `Fragment not found`; the two outcomes differ, so
the operation does *not* treat a mismatch identically to a missing record. -/
theorem writeFragmentData_mismatch_distinguishable :
    writeFragmentData dbOne "user2" "f1" [1, 2, 3] =
      .error "Fragment owner mismatch" ∧
    writeFragmentData (dbDelete dbOne "f1").2 "user2" "f1" [1, 2, 3] =
      .error "Fragment not found" ∧
    writeFragmentData dbOne "user2" "f1" [1, 2, 3] ≠
      writeFragmentData (dbDelete dbOne "f1").2 "user2" "f1" [1, 2, 3] := by
  refine ⟨rfl, rfl, fun h => ?_⟩
  rw [show writeFragmentData dbOne "user2" "f1" [1, 2, 3] =
        .error "Fragment owner mismatch" from rfl,
      show writeFragmentData (dbDelete dbOne "f1").2 "user2" "f1" [1, 2, 3] =
        .error "Fragment not found" from rfl] at h
  simp at h

/-- C1 (amended): for `readFragment`, `readFragmentData` and `deleteFragment`
an owner mismatch yields exactly the missing-record outcome (`null`, `null`,
`false` with the store untouched); `writeFragmentData` rejects both cases but
with distinct errors — `Fragment owner mismatch` on a mismatch versus
`Fragment not found` on a missing record. -/
theorem ownerMismatch_reads_deletes_as_missing
    (db : DB) (ownerId id : String) (f : StoredFragment) (b : Bytes)
    (hget : dbGet db id = some f) (hmm : f.ownerId ≠ ownerId) :
    readFragment db ownerId id = none ∧
    readFragmentData db ownerId id = none ∧
    deleteFragment db ownerId id = (false, db) ∧
    readFragment (dbDelete db id).2 ownerId id = none ∧
    readFragmentData (dbDelete db id).2 ownerId id = none ∧
    deleteFragment (dbDelete db id).2 ownerId id = (false, (dbDelete db id).2) ∧
    writeFragmentData db ownerId id b = .error "Fragment owner mismatch" ∧
    writeFragmentData (dbDelete db id).2 ownerId id b =
      .error "Fragment not found" := by
  have herase := dbGet_dbDelete_self db id
  refine ⟨?_, ?_, ?_, ?_, ?_, ?_, ?_, ?_⟩ <;>
    simp [readFragment, readFragmentData, deleteFragment, writeFragmentData,
      hget, hmm, herase]

/-- C1 witness: the amended theorem applied to the concrete store `dbOne`. -/
theorem ownerMismatch_reads_deletes_as_missing_witness :
    readFragment dbOne "user2" "f1" = none :=
  (ownerMismatch_reads_deletes_as_missing dbOne "user2" "f1" recU1 [1, 2, 3]
    rfl (by decide)).1

/-- C2: `writeFragment` performs no ownership check — with a record already
stored under `id` and owned by `f.ownerId`, writing a record `g` with a
different owner succeeds unconditionally, returns `{ id, ...g }`, and
replaces the stored record (owner included) with `g`. -/
theorem writeFragment_no_ownership_check
    (db : DB) (id : String) (f g : StoredFragment)
    (_hget : dbGet db id = some f) (_howner : f.ownerId ≠ g.ownerId) :
    (writeFragment db (id, g)).1 = (id, g) ∧
    dbGet (writeFragment db (id, g)).2 id = some g :=
  ⟨rfl, dbGet_dbSet_self db id g⟩

/-- C2 witness: replacing `user1`'s record with one owned by `user2`. -/
theorem writeFragment_no_ownership_check_witness :
    dbGet (writeFragment dbOne ("f1", recU2)).2 "f1" = some recU2 :=
  (writeFragment_no_ownership_check dbOne "f1" recU1 recU2 rfl (by decide)).2

/-- C3 (counterexample): the AWS `writeFragmentData` recomputes the size only
in its returned object — after a successful 4-byte blob write, the stored
metadata record still carries the stale size 10, so the recomputed size is
*not* persisted in the stored metadata record. -/
theorem awsWriteFragmentData_does_not_persist_size :
    (awsWriteFragmentData ⟨dbOne, []⟩ "user1" "f1" [1, 2, 3, 4]).2 =
      .ok ("f1", { recU1 with size := 4 }) ∧
    dbGet (awsWriteFragmentData ⟨dbOne, []⟩ "user1" "f1" [1, 2, 3, 4]).1.meta "f1" =
      some recU1 ∧
    recU1.size = 10 :=
  ⟨rfl, rfl, rfl⟩

/-- C3 (amended): the memory `writeFragmentData` fails with
`Fragment not found` when no record exists and `Fragment owner mismatch` when
the stored owner differs, and on success persists the payload together with
the recomputed `size = length(b)` in the stored record; the AWS variant
returns the recomputed size but leaves the stored metadata record unchanged
(and uploads the blob before the metadata checks). -/
theorem writeFragmentData_size_spec
    (db : DB) (s : AwsState) (ownerId id : String) (b : Bytes) (f : StoredFragment) :
    (dbGet db id = none →
      writeFragmentData db ownerId id b = .error "Fragment not found") ∧
    (dbGet db id = some f → f.ownerId ≠ ownerId →
      writeFragmentData db ownerId id b = .error "Fragment owner mismatch") ∧
    (dbGet db id = some f → f.ownerId = ownerId →
      writeFragmentData db ownerId id b =
        .ok ((id, { f with data := some b, size := b.length }),
          dbSet db id { f with data := some b, size := b.length }) ∧
      dbGet (dbSet db id { f with data := some b, size := b.length }) id =
        some { f with data := some b, size := b.length }) ∧
    (dbGet s.meta id = some f → f.ownerId = ownerId →
      awsWriteFragmentData s ownerId id b =
        ({ meta := s.meta, s3 := s3Put s.s3 (s3Key ownerId id) b },
          .ok (id, { f with size := b.length }))) := by
  refine ⟨?_, ?_, ?_, ?_⟩
  · intro h; simp [writeFragmentData, h]
  · intro h hmm; simp [writeFragmentData, h, hmm]
  · intro h howner
    refine ⟨?_, dbGet_dbSet_self db id _⟩
    simp [writeFragmentData, h, howner]
  · intro h howner
    simp [awsWriteFragmentData, h, howner]

/-- C3 witness: the success case on the concrete store `dbOne`. -/
theorem writeFragmentData_size_spec_witness :
    writeFragmentData dbOne "user1" "f1" helloBytes =
      .ok (("f1", { recU1 with data := some helloBytes, size := 5 }),
        dbSet dbOne "f1" { recU1 with data := some helloBytes, size := 5 }) :=
  ((writeFragmentData_size_spec dbOne ⟨dbOne, []⟩ "user1" "f1" helloBytes recU1).2.2.1
    rfl rfl).1

/-- C4 (counterexample): a fragment constructed with `{ ownerId, type, data }`
and a 5-byte payload has `size = 0`, not `size = len(data)` — the constructor
takes `size` from its (defaulted) `size` argument and never derives it from
`data`. -/
theorem fragmentNew_size_not_from_data :
    (fragmentNew "user1" "text/plain" none (some helloBytes) "id1" "t0").data =
      some helloBytes ∧
    helloBytes.length = 5 ∧
    (fragmentNew "user1" "text/plain" none (some helloBytes) "id1" "t0").size = 0 :=
  ⟨rfl, rfl, rfl⟩

/-- C4 (amended): `size` equals the explicitly passed `size` argument
(default 0) after construction, regardless of `data`; `setData` recomputes
`size = len(data)` on the instance; `save()` with a payload persists a stored
record whose `size` is recomputed to `len(data)` by the backend blob write,
while `save()` without a payload persists the instance's `size` as given. -/
theorem size_tracks_data_amended
    (o t : String) (sz : Option Nat) (dat : Option Bytes) (id now : String)
    (f : Fragment) (d : Bytes) (db : DB) :
    (fragmentNew o t sz dat id now).size = sz.getD 0 ∧
    ((f.setData d now).size = d.length ∧ (f.setData d now).data = some d) ∧
    (f.data = some d →
      f.save db = .ok (f, dbSet (dbSet db f.id f.metadata) f.id
        { f.metadata with data := some d, size := d.length }) ∧
      dbGet (dbSet (dbSet db f.id f.metadata) f.id
          { f.metadata with data := some d, size := d.length }) f.id =
        some { f.metadata with data := some d, size := d.length }) ∧
    (f.data = none →
      f.save db = .ok (f, dbSet db f.id f.metadata) ∧
      dbGet (dbSet db f.id f.metadata) f.id = some f.metadata ∧
      f.metadata.size = f.size) := by
  refine ⟨rfl, ⟨rfl, rfl⟩, ?_, ?_⟩
  · intro hdat
    constructor
    · simp [Fragment.save, writeFragment, hdat, writeFragmentData,
        dbGet_dbSet_self, Fragment.metadata]
    · exact dbGet_dbSet_self _ _ _
  · intro hdat
    exact ⟨by simp [Fragment.save, writeFragment, hdat], dbGet_dbSet_self _ _ _, rfl⟩

/-- C4 witness: saving a freshly constructed fragment carrying `"hello"`
persists a stored record of size 5. -/
theorem size_tracks_data_amended_witness :
    (fragmentNew "user1" "text/plain" none (some helloBytes) "id1" "t0").save [] =
      .ok (fragmentNew "user1" "text/plain" none (some helloBytes) "id1" "t0",
        dbSet (dbSet []
            (fragmentNew "user1" "text/plain" none (some helloBytes) "id1" "t0").id
            (fragmentNew "user1" "text/plain" none (some helloBytes) "id1" "t0").metadata)
          (fragmentNew "user1" "text/plain" none (some helloBytes) "id1" "t0").id
          { (fragmentNew "user1" "text/plain" none (some helloBytes) "id1" "t0").metadata
              with data := some helloBytes, size := helloBytes.length }) :=
  ((size_tracks_data_amended "user1" "text/plain" none (some helloBytes) "id1" "t0"
    (fragmentNew "user1" "text/plain" none (some helloBytes) "id1" "t0")
    helloBytes []).2.2.1 rfl).1

/-! ## Conversion engine — `src/converter.js` -/

/-- The text family used by `canConvert`, `convert` and `convertText`. -/
def textTypes : List String :=
  ["text/plain", "text/html", "text/css", "text/javascript",
   "text/markdown", "application/json"]

/-- The image family used by `canConvert`, `convert` and `convertImage`. -/
def imageTypes : List String :=
  ["image/png", "image/jpeg", "image/webp", "image/avif", "image/gif"]

/-- Models `canConvert(fromType, toType)`: `true` on equal types, on two text
types, on two image types; `false` otherwise. -/
def canConvert (fromType toType : String) : Bool :=
  if fromType = toType then true
  else if textTypes.contains fromType && textTypes.contains toType then true
  else if imageTypes.contains fromType && imageTypes.contains toType then true
  else false

/-- External collaborators of the text conversion routine — the `markdown-it`
renderer, the JS `JSON` builtin and the regex engine behind the non-literal
`String.prototype.replace` calls.  Each theorem below quantifies over this
structure, so it holds for every behaviour of the collaborators. -/
structure TextOps where
  /-- Models `md.render(text)` (markdown-it). -/
  mdRender : String → String
  /-- Models `JSON.stringify(JSON.parse(text), null, 2)`: `some` of the pretty
  output when `JSON.parse` succeeds, `none` when it throws. -/
  jsonPretty : String → Option String
  /-- Models `JSON.stringify(JSON.parse(text))`: compact output, `none` when
  `JSON.parse` throws. -/
  jsonCompact : String → Option String
  /-- Models `JSON.stringify(text)` applied to a plain string: quote and
  escape. -/
  jsonQuote : String → String
  /-- Models `.replace(/<[^>]*>/g, ...)` removing HTML tags. -/
  stripTags : String → String
  /-- Models the script-tag removal regex replace of the HTML branches. -/
  stripScripts : String → String
  /-- Models the style-tag removal regex replace of the HTML branches. -/
  stripStyles : String → String
  /-- Models the `h1/h2/h3/strong/b/em/i/code/pre` capture-group replacements
  of the HTML-to-Markdown branch, applied in source order. -/
  htmlTagsToMarkdown : String → String
  /-- Models the blank-line normalisation regex of the Markdown-to-plain
  branch. -/
  squeezeBlankLines : String → String
  /-- Models the triple-blank-line normalisation regex of the HTML
  branches. -/
  squeezeTripleBlankLines : String → String
  /-- Models the entity-stripping regex replace turning entities into
  spaces. -/
  stripEntities : String → String
  /-- Models `Buffer.prototype.toString('utf-8')`. -/
  utf8Decode : Bytes → String
  /-- Models `Buffer.from(result, 'utf-8')`. -/
  utf8Encode : String → Bytes

/-- Shared HTML-escape chain of the plain/css/js to HTML branches: the five
literal global replaces for ampersand, angle brackets, double quote and
apostrophe, in source order. -/
def escapeHtmlAll (text : String) : String :=
  ((((text.replace "&" "&amp;").replace "<" "&lt;").replace ">" "&gt;").replace
    "\"" "&quot;").replace "\x27" "&#39;"

/-- Shared HTML-escape chain of the JSON-to-HTML branch: as `escapeHtmlAll`
but without the apostrophe replace. -/
def escapeHtmlNoApos (text : String) : String :=
  (((text.replace "&" "&amp;").replace "<" "&lt;").replace ">" "&gt;").replace
    "\"" "&quot;"

/-- Minimal document shell wrapping escaped content in a `pre` element. -/
def htmlShellPre (inner : String) : String :=
  "<!DOCTYPE html><html><head><meta charset=\"utf-8\"></head><body><pre>" ++
    inner ++ "</pre></body></html>"

/-- Minimal document shell wrapping escaped content in a given element. -/
def htmlShellTag (tag inner : String) : String :=
  "<!DOCTYPE html><html><head><meta charset=\"utf-8\"></head><body><" ++ tag ++
    ">" ++ inner ++ "</" ++ tag ++ "></body></html>"

/-- Shared entity-decoding chain of the HTML/Markdown to plain branches: the
literal global replaces for nbsp, ampersand, angle brackets, double quote and
the decimal apostrophe entity, in source order. -/
def decodeBasicEntities (text : String) : String :=
  (((((text.replace "&nbsp;" " ").replace "&amp;" "&").replace "&lt;"
    "<").replace "&gt;" ">").replace "&quot;" "\"").replace "&#39;" "\x27"

/-- Wraps text in a CSS block comment, defusing any close-comment marker. -/
def wrapCssComment (text : String) : String :=
  "/* " ++ text.replace "*/" "* /" ++ " */"

/-- Prefixes every line of the text with a JS line comment marker. -/
def wrapJsComment (text : String) : String :=
  "// " ++ text.replace "\n" "\n// "

/-- Models `convertText(data, fromType, toType)`: identity short-circuit, then
the fixed if/else chain of pairwise text transformations, with the final
`Unsupported text conversion` throw as the fallback.  Branch guards follow
the source order exactly. -/
def convertText (ops : TextOps) (data : Bytes) (fromType toType : String) :
    Except String Bytes :=
  if fromType = toType then .ok data
  else
    let text := ops.utf8Decode data
    let result : Except String String :=
      if fromType = "text/markdown" ∧ toType = "text/html" then
        .ok (ops.mdRender text)
      else if fromType = "text/plain" ∧ toType = "text/html" then
        .ok (htmlShellPre (escapeHtmlAll text))
      else if fromType = "text/markdown" ∧ toType = "text/plain" then
        .ok (((decodeBasicEntities (ops.stripTags
          (ops.mdRender text))) |> ops.squeezeBlankLines).trim)
      else if fromType = "text/plain" ∧ toType = "text/markdown" then
        .ok (if text.contains '\n' ∨ text.length > 50 then
          "```\n" ++ text ++ "\n```" else text)
      else if fromType = "text/html" ∧ toType = "text/plain" then
        .ok (((((decodeBasicEntities (ops.stripTags (ops.stripStyles
          (ops.stripScripts text)))).replace "&#x27;" "\x27").replace
          "&#x2F;" "/") |> ops.squeezeTripleBlankLines).trim)
      else if fromType = "text/html" ∧ toType = "text/markdown" then
        .ok (((decodeBasicEntities (ops.stripTags (ops.htmlTagsToMarkdown
          (ops.stripStyles (ops.stripScripts text))))) |>
          ops.squeezeTripleBlankLines).trim)
      else if (fromType = "text/css" ∨ fromType = "text/javascript") ∧
          toType = "text/plain" then
        .ok text
      else if fromType = "application/json" ∧ toType = "text/plain" then
        .ok ((ops.jsonPretty text).getD text)
      else if fromType = "text/plain" ∧ toType = "application/json" then
        .ok (ops.jsonQuote text)
      else if (fromType = "text/css" ∨ fromType = "text/javascript") ∧
          toType = "application/json" then
        .ok (ops.jsonQuote text)
      else if fromType = "text/markdown" ∧ toType = "application/json" then
        .ok (ops.jsonQuote text)
      else if fromType = "text/html" ∧ toType = "application/json" then
        .ok (ops.jsonQuote text)
      else if fromType = "application/json" ∧ toType = "text/html" then
        .ok (htmlShellPre (escapeHtmlNoApos ((ops.jsonPretty text).getD text)))
      else if fromType = "application/json" ∧ toType = "text/markdown" then
        .ok ("```json\n" ++
          ((ops.jsonPretty text).getD text).replace "\"" "&quot;" ++ "\n```")
      else if (fromType = "text/css" ∨ fromType = "text/javascript") ∧
          toType = "text/html" then
        .ok (htmlShellTag (if fromType = "text/css" then "style" else "script")
          (escapeHtmlAll text))
      else if (fromType = "text/css" ∨ fromType = "text/javascript") ∧
          toType = "text/markdown" then
        .ok ("```" ++ (if fromType = "text/css" then "css" else "javascript") ++
          "\n" ++ text ++ "\n```")
      else if fromType = "text/plain" ∧ toType = "text/css" then
        .ok (wrapCssComment text)
      else if fromType = "text/plain" ∧ toType = "text/javascript" then
        .ok (wrapJsComment text)
      else if fromType = "text/html" ∧ toType = "text/css" then
        .ok (wrapCssComment ((ops.stripEntities (ops.stripTags text)).trim))
      else if fromType = "text/html" ∧ toType = "text/javascript" then
        .ok (wrapJsComment ((ops.stripEntities (ops.stripTags text)).trim))
      else if fromType = "text/css" ∧ toType = "text/javascript" then
        .ok (wrapCssComment text)
      else if fromType = "text/javascript" ∧ toType = "text/css" then
        .ok (wrapCssComment text)
      else if fromType = "text/markdown" ∧ toType = "text/css" then
        .ok (wrapCssComment ((ops.stripEntities (ops.stripTags
          (ops.mdRender text))).trim))
      else if fromType = "text/markdown" ∧ toType = "text/javascript" then
        .ok (wrapJsComment ((ops.stripEntities (ops.stripTags
          (ops.mdRender text))).trim))
      else if fromType = "application/json" ∧ toType = "text/css" then
        .ok (wrapCssComment ((ops.jsonCompact text).getD text))
      else if fromType = "application/json" ∧ toType = "text/javascript" then
        .ok (match ops.jsonPretty text with
          | some s => "const data = " ++ s ++ ";"
          | none => wrapJsComment text)
      else
        .error ("Unsupported text conversion from " ++ fromType ++ " to " ++
          toType)
    result.map ops.utf8Encode

/-- Abstraction of the `sharp` codec:
`sharp(data).toFormat(outputFormat).toBuffer()` on its success path (a decode
failure would reject the promise and surface as a backend error). -/
structure ImageCodec where
  reencode : Bytes → String → Bytes

/-- Models the `switch (toType)` of `convertImage` choosing the sharp output
format, `none` standing for the `Unsupported image target type` default. -/
def outputFormatOf (toType : String) : Option String :=
  if toType = "image/png" then some "png"
  else if toType = "image/jpeg" then some "jpeg"
  else if toType = "image/webp" then some "webp"
  else if toType = "image/avif" then some "avif"
  else if toType = "image/gif" then some "gif"
  else none

/-- Models `convertImage(data, fromType, toType)`: identity short-circuit
before the codec is touched, then the format switch and the sharp
re-encode. -/
def convertImage (codec : ImageCodec) (data : Bytes) (fromType toType : String) :
    Except String Bytes :=
  if fromType = toType then .ok data
  else
    match outputFormatOf toType with
    | none => .error ("Unsupported image target type: " ++ toType)
    | some fmt => .ok (codec.reencode data fmt)

/-- Models `convert(data, fromType, toType)`: the `canConvert` gate, then the
family dispatch to `convertText` / `convertImage`, with the final
`Unsupported conversion` throw for pairs in neither family. -/
def convert (ops : TextOps) (codec : ImageCodec) (data : Bytes)
    (fromType toType : String) : Except String Bytes :=
  if ¬ canConvert fromType toType then
    .error ("Conversion from " ++ fromType ++ " to " ++ toType ++
      " is not supported")
  else if textTypes.contains fromType && textTypes.contains toType then
    convertText ops data fromType toType
  else if imageTypes.contains fromType && imageTypes.contains toType then
    convertImage codec data fromType toType
  else
    .error ("Unsupported conversion from " ++ fromType ++ " to " ++ toType)

/-- Lowercasing of one ASCII character, modelling
`String.prototype.toLowerCase` on the ASCII range the extension table
uses. -/
def jsLowerChar (c : Char) : Char :=
  if 65 ≤ c.toNat ∧ c.toNat ≤ 90 then Char.ofNat (c.toNat + 32) else c

/-- Models `extension.toLowerCase()`. -/
def jsToLower (s : String) : String := ⟨s.data.map jsLowerChar⟩

/-- The extension table of `extensionToMimeType`, in source order. -/
def extensionMap : List (String × String) :=
  [(".txt", "text/plain"), (".html", "text/html"), (".css", "text/css"),
   (".js", "text/javascript"), (".md", "text/markdown"),
   (".json", "application/json"), (".png", "image/png"),
   (".jpg", "image/jpeg"), (".jpeg", "image/jpeg"), (".webp", "image/webp"),
   (".avif", "image/avif"), (".gif", "image/gif")]

/-- Models `extensionToMimeType(extension)`:
`extensionMap[extension.toLowerCase()] || null`. -/
def extensionToMimeType (extension : String) : Option String :=
  (extensionMap.find? (fun p => p.1 = jsToLower extension)).map (·.2)

/-- Trivial instantiation of the external text collaborators, used to
evaluate the dispatcher at concrete inputs. -/
def opsId : TextOps :=
  { mdRender := id, jsonPretty := fun _ => none, jsonCompact := fun _ => none,
    jsonQuote := id, stripTags := id, stripScripts := id, stripStyles := id,
    htmlTagsToMarkdown := id, squeezeBlankLines := id,
    squeezeTripleBlankLines := id, stripEntities := id,
    utf8Decode := fun _ => "", utf8Encode := fun _ => [] }

/-- Trivial instantiation of the image codec, used to evaluate the dispatcher
at concrete inputs. -/
def codecNull : ImageCodec := { reencode := fun _ _ => [] }

/-- The sample record with its `type` changed, for distinguishing listings. -/
def recHtmlType : StoredFragment := { recU1 with type := "text/html" }

/-- A store identical to `dbOne` except for the fragment's `type`. -/
def dbOneHtml : DB := [("f1", recHtmlType)]

/-! ## Lowercasing lemmas -/

theorem toNat_ofNat_valid (n : Nat) (h : n.isValidChar) :
    (Char.ofNat n).toNat = n := by
  unfold Char.ofNat
  rw [dif_pos h]
  rfl

theorem jsLowerChar_idem (c : Char) :
    jsLowerChar (jsLowerChar c) = jsLowerChar c := by
  unfold jsLowerChar
  by_cases h : 65 ≤ c.toNat ∧ c.toNat ≤ 90
  · rw [if_pos h]
    have hv : (c.toNat + 32).isValidChar := Or.inl (by omega)
    rw [if_neg]
    rw [toNat_ofNat_valid _ hv]
    omega
  · rw [if_neg h, if_neg h]

theorem jsToLower_idem (s : String) : jsToLower (jsToLower s) = jsToLower s := by
  unfold jsToLower
  simp only [List.map_map]
  congr 1
  exact List.map_congr_left (fun c _ => jsLowerChar_idem c)

/-! ## Claims C5–C10 and C8 -/

/-- C5 (counterexample): there is no ordered pair of distinct text-family
types on which the text conversion routine fails — every such pair takes an
implemented branch, so the claimed unimplemented pair does not exist. -/
theorem convertText_no_missing_text_pair :
    ¬ ∃ a ∈ textTypes, ∃ b ∈ textTypes, a ≠ b ∧
        (convertText opsId [0] a b).isOk = false := by decide

/-- C5 (amended): the text conversion table is total on the text family —
for every ordered pair of text-family types (and every behaviour of the
external collaborators and every payload) `convertText` returns a result;
the explicit `Unsupported text conversion` fallback is unreachable for pairs
within the family. -/
theorem convertText_text_family_total (ops : TextOps) (d : Bytes)
    (a b : String) (ha : a ∈ textTypes) (hb : b ∈ textTypes) :
    ∃ r, convertText ops d a b = .ok r := by
  fin_cases ha <;> fin_cases hb <;> exact ⟨_, rfl⟩

/-- C5 witness: the Markdown-to-HTML pair succeeds. -/
theorem convertText_text_family_total_witness :
    ∃ r, convertText opsId [0] "text/markdown" "text/html" = .ok r :=
  convertText_text_family_total opsId [0] "text/markdown" "text/html"
    (by decide) (by decide)

/-- C6: `canConvert a b` is true exactly when `a = b`, or both types are in
the text family, or both are in the image family; every other pair — in
particular every cross-family pair — yields false. -/
theorem canConvert_same_family_iff (a b : String) :
    canConvert a b = true ↔
      a = b ∨ (a ∈ textTypes ∧ b ∈ textTypes) ∨
        (a ∈ imageTypes ∧ b ∈ imageTypes) := by
  by_cases hab : a = b
  · simp [canConvert, hab]
  · by_cases hta : a ∈ textTypes <;> by_cases htb : b ∈ textTypes <;>
      by_cases hia : a ∈ imageTypes <;> by_cases hib : b ∈ imageTypes <;>
        simp [canConvert, hab, List.elem_iff, hta, htb, hia, hib]

/-- C7 (counterexample): `isSupportedType` accepts the bare type but rejects
the same type with a charset parameter appended — no parameter stripping
happens inside the membership test. -/
theorem isSupportedType_rejects_charset_param :
    isSupportedType "text/plain" = true ∧
    isSupportedType "text/plain; charset=utf-8" = false := by decide

/-- C7 (amended): `isSupportedType` is an exact membership test of the full
string against the fixed allow-list; consequently any string with a
parameter suffix introduced by a semicolon is rejected (the route layer, not
this function, strips parameters before calling it). -/
theorem isSupportedType_exact_membership :
    (∀ t, isSupportedType t = true ↔ t ∈ supportedTypes) ∧
    (∀ t p, isSupportedType (t ++ ";" ++ p) = false) := by
  constructor
  · intro t
    simp [isSupportedType, List.elem_iff]
  · intro t p
    rw [Bool.eq_false_iff]
    intro hcontains
    have hmem : (t ++ ";" ++ p) ∈ supportedTypes :=
      List.elem_iff.mp hcontains
    have hsemi : ';' ∈ (t ++ ";" ++ p).data := by
      rw [String.data_append]
      refine List.mem_append.mpr (Or.inl ?_)
      rw [String.data_append]
      exact List.mem_append.mpr (Or.inr (by decide))
    simp only [supportedTypes, List.mem_cons, List.not_mem_nil,
      or_false] at hmem
    rcases hmem with h | h | h | h | h | h | h | h <;>
      (rw [h] at hsemi; revert hsemi; decide)

/-- C8 (counterexample): the non-expanded listing is not a projection to
`{id, created, updated}` — two stores that differ only in a fragment's `type`
produce different listings, and the listed records still carry `type` and
`size`. -/
theorem listFragments_no_projection :
    byUser dbOne "user1" false ≠ byUser dbOneHtml "user1" false ∧
    (byUser dbOne "user1" false).map (fun p => (p.1, p.2.type, p.2.size)) =
      [("f1", "text/plain", 10)] := by decide

/-- C8 (amended): `listFragments` ignores the `expand` flag and always
returns the full stored records of the owner; `byUser` with `expand = true`
additionally loads and attaches each record's blob data, and with
`expand = false` returns the full records unchanged — no
`{id, created, updated}` projection occurs anywhere. -/
theorem byUser_full_records (db : DB) (o : String) :
    byUser db o false = db.filter (fun p => p.2.ownerId = o) ∧
    byUser db o true = (db.filter (fun p => p.2.ownerId = o)).map
      (fun p => (p.1, { p.2 with data := readFragmentData db o p.1 })) :=
  ⟨rfl, rfl⟩

/-- C9 (counterexample): `text/xml` is in the supported allow-list and
`canConvert` accepts the identity pair, yet `convert` throws even for the
identity conversion because `text/xml` belongs to neither conversion
family. -/
theorem convert_identity_fails_for_xml :
    isSupportedType "text/xml" = true ∧
    canConvert "text/xml" "text/xml" = true ∧
    convert opsId codecNull [1, 2] "text/xml" "text/xml" =
      .error "Unsupported conversion from text/xml to text/xml" :=
  ⟨rfl, rfl, rfl⟩

/-- C9 (amended): for every type in the converter's text or image family the
identity conversion returns exactly the original bytes, for every payload,
every behaviour of the text collaborators and every image codec — so the
codec is never consulted on the identity path; for supported types outside
the two families (`text/xml`, `application/xml`) even the identity
conversion is rejected. -/
theorem convert_identity_same_family (ops : TextOps) (codec : ImageCodec)
    (d : Bytes) (t : String) (ht : t ∈ textTypes ∨ t ∈ imageTypes) :
    convert ops codec d t t = .ok d := by
  rcases ht with h | h <;> fin_cases h <;> rfl

/-- C9 witness: the identity conversion on `image/png` returns the original
bytes even under a codec that always discards its input. -/
theorem convert_identity_same_family_witness :
    convert opsId codecNull [7, 8] "image/png" "image/png" = .ok [7, 8] :=
  convert_identity_same_family opsId codecNull [7, 8] "image/png"
    (Or.inr (by decide))

/-- C10: `extensionToMimeType` maps exactly the twelve known extensions to
their MIME types, is insensitive to letter case (lowercasing the argument
never changes the result), and returns the null marker for every extension
whose lowercase form is outside the table. -/
theorem extensionToMimeType_closed_table :
    (extensionToMimeType ".txt" = some "text/plain" ∧
     extensionToMimeType ".html" = some "text/html" ∧
     extensionToMimeType ".css" = some "text/css" ∧
     extensionToMimeType ".js" = some "text/javascript" ∧
     extensionToMimeType ".md" = some "text/markdown" ∧
     extensionToMimeType ".json" = some "application/json" ∧
     extensionToMimeType ".png" = some "image/png" ∧
     extensionToMimeType ".jpg" = some "image/jpeg" ∧
     extensionToMimeType ".jpeg" = some "image/jpeg" ∧
     extensionToMimeType ".webp" = some "image/webp" ∧
     extensionToMimeType ".avif" = some "image/avif" ∧
     extensionToMimeType ".gif" = some "image/gif" ∧
     extensionToMimeType ".PNG" = some "image/png" ∧
     extensionToMimeType ".Jpg" = some "image/jpeg") ∧
    (∀ e, extensionToMimeType e = extensionToMimeType (jsToLower e)) ∧
    (∀ e, jsToLower e ∉ extensionMap.map Prod.fst →
      extensionToMimeType e = none) := by
  refine ⟨by decide, ?_, ?_⟩
  · intro e
    unfold extensionToMimeType
    rw [jsToLower_idem]
  · intro e h
    have hfind : extensionMap.find? (fun p => p.1 = jsToLower e) = none := by
      rw [List.find?_eq_none]
      intro p hp
      simp only [decide_eq_true_eq]
      intro hq
      exact h (List.mem_map.mpr ⟨p, hp, hq⟩)
    unfold extensionToMimeType
    rw [hfind]
    rfl

/-- C10 witness: an extension outside the table maps to the null marker. -/
theorem extensionToMimeType_closed_table_witness :
    extensionToMimeType ".xyz" = none :=
  extensionToMimeType_closed_table.2.2 ".xyz" (by decide)

end Fragments
